import Mathlib

/-!
# Verification of the 16-bit CPU emulator (cpu16.cpp)

Shallow embedding of `src/cpu16.cpp`: the flag accessors, the instruction-word
nibble decoder, the register file / memory model, `runInstruction`, and the
fetch-execute loop of `main`, together with theorems settling the spec claims.

Machine words are modelled as `Nat` with explicit `% 65536` wherever the C++
`uint16_t` type truncates.  A register access `reg[i]` with `i` outside the
register file is an out-of-bounds array access in the C++ source (undefined
behavior); it is modelled as `none`.
-/

set_option maxRecDepth 8000

namespace Cpu16

/-- Flag read: models `getbit` of cpu16.cpp (`mask = 1 << bitpos; return num & mask`).
The mask is stored into a `uint16_t`, hence the `% 65536`. -/
def getbit (num bitpos : Nat) : Nat :=
  num &&& ((1 <<< bitpos) % 65536)

/-- Flag write: models `setbit` of cpu16.cpp (`num |= mask` / `num &= ~mask` on
`uint16_t`).  The or-branch truncates like the `uint16_t` store; the and-branch
uses the 16-bit complement of the mask. -/
def setbit (num bitpos : Nat) (b : Bool) : Nat :=
  let mask := (1 <<< bitpos) % 65536
  if b then (num ||| mask) % 65536 else num &&& (65535 ^^^ mask)

/-- Models `getNibble1`: opcode bits 15-12 of the first instruction word. -/
def getNibble1 (num : Nat) : Nat := num >>> 12

/-- Models `getNibble2`: bits 11-8 of the first instruction word. -/
def getNibble2 (num : Nat) : Nat := (num >>> 8) &&& 0x000F

/-- Models `getNibble3`: bits 7-4 of the first instruction word. -/
def getNibble3 (num : Nat) : Nat := (num >>> 4) &&& 0x000F

/-- Models `getNibble4`: bits 3-0 of the first instruction word. -/
def getNibble4 (num : Nat) : Nat := num &&& 0x000F

/-- Machine state: the register file `uint16_t reg[5]` (slot 0 = program
counter, slot 1 = flags), the data store `uint16_t RAM[0xFFFF]` (modelled as a
read function, since its size only matters for addressing), the stream of
values printed by `OUT`, and the `halt` flag. -/
structure Mach where
  reg : List Nat
  ram : Nat → Nat
  output : List Nat
  halt : Bool

/-- Read `reg[i]`.  `none` models the out-of-bounds access the C++ source
performs (without any check) when `i` is not below the register-file size. -/
def regGet (l : List Nat) (i : Nat) : Option Nat := l.get? i

/-- Write `reg[i]`.  `none` models the out-of-bounds access the C++ source
performs (without any check) when `i` is not below the register-file size. -/
def regSet (l : List Nat) (i v : Nat) : Option (List Nat) :=
  if i < l.length then some (l.set i v) else none

/-- Models `runInstruction(uint16_t instruction, uint16_t address)`:
the `% 65536` on the two arguments models the `uint16_t` parameter types.
The program counter is incremented by 2 before the opcode dispatch, exactly as
in the source (`reg[0] += 2;` before the `switch`).  Only the opcodes the
source implements appear; every other opcode (including 0xF) takes the
`default` branch and sets `halt`. -/
def runInstruction (instruction address : Nat) (m : Mach) : Option Mach :=
  let instr := instruction % 65536
  let addr := address % 65536
  let n1 := getNibble1 instr
  let n2 := getNibble2 instr
  let n3 := getNibble3 instr
  let n4 := getNibble4 instr
  (regGet m.reg 0).bind fun pc =>
  (regSet m.reg 0 ((pc + 2) % 65536)).bind fun rpc =>
  let m1 : Mach := { m with reg := rpc }
  match n1 with
  | 0x0 =>
      (regGet m1.reg n2).bind fun a =>
      (regGet m1.reg n3).bind fun b =>
      (regSet m1.reg n4 ((a + b) % 65536)).map fun r2 => { m1 with reg := r2 }
  | 0x5 =>
      (regGet m1.reg 1).bind fun f0 =>
      let fc := setbit (setbit (setbit f0 0 false) 1 false) 2 false
      (regSet m1.reg 1 fc).bind fun rc =>
      let m2 : Mach := { m1 with reg := rc }
      (regGet m2.reg n2).bind fun a =>
      (regGet m2.reg n3).bind fun b =>
      let fr := if a > b then setbit fc 0 true
                else if a = b then setbit fc 1 true
                else if a < b then setbit fc 2 true
                else fc
      (regSet m2.reg 1 fr).map fun rr => { m2 with reg := rr }
  | 0x6 =>
      (regGet m1.reg n2).bind fun a =>
      (regSet m1.reg n3 a).map fun r2 => { m1 with reg := r2 }
  | 0x7 =>
      (regGet m1.reg n2).map fun a => { m1 with output := m1.output ++ [a] }
  | 0xA =>
      (regSet m1.reg n2 addr).map fun r2 => { m1 with reg := r2 }
  | 0xE =>
      (regGet m1.reg 1).bind fun f =>
      if n2 = 0 then
        if getbit f n3 = 0 then
          (regSet m1.reg 0 addr).map fun r2 => { m1 with reg := r2 }
        else some m1
      else if n2 = 1 then
        if getbit f n3 ≠ 0 then
          (regSet m1.reg 0 addr).map fun r2 => { m1 with reg := r2 }
        else some m1
      else
        (regSet m1.reg 0 addr).map fun r2 => { m1 with reg := r2 }
  | _ => some { m1 with halt := true }

/-- The declared size of `uint16_t ROM[0xFFFF]` in cpu16.cpp: 0xFFFF = 65535
words (the source comment claims this equals 2^16 = 65536, which is wrong). -/
def romSize : Nat := 0xFFFF

/-- The declared size of `uint16_t RAM[0xFFFF]` in cpu16.cpp: 65535 words. -/
def ramSize : Nat := 0xFFFF

/-- The contents of `ROM` after `main`'s initialization: every cell is first
set to the HLT sentinel 0xFFFF (`for (i=0; i<0xFFFF; i++) ROM[i] = 0xFFFF;`)
and then the program words are written starting at address 0.  A read beyond
the declared array size is out of bounds and modelled as `none`. -/
def romRead (prog : List Nat) (a : Nat) : Option Nat :=
  if a < romSize then some (prog.getD a 0xFFFF) else none

/-- The 18-word Fibonacci demo program hardcoded in `main`. -/
def fibProgram : List Nat :=
  [0xA200, 0x0000, 0xA300, 0x0001, 0x0234, 0x0000, 0x7400, 0x0000,
   0x6320, 0x0000, 0x6430, 0x0000, 0x0234, 0x0000, 0x5430, 0x0000,
   0xE100, 0x0006]

/-- A program whose only instruction is HLT. -/
def hltProgram : List Nat := [0xF000, 0x0000]

/-- A two-word program consisting of one unconditional jump to address 0xFFFE. -/
def jumpHighProgram : List Nat := [0xE200, 0xFFFE]

/-- One iteration of `main`'s run loop:
`runInstruction( ROM[reg[0]], ROM[reg[0]+1] )`.  The fetch of each of the two
instruction words is a ROM array access and is `none` when out of bounds. -/
def cycleStep (rom : Nat → Option Nat) (m : Mach) : Option Mach :=
  (regGet m.reg 0).bind fun pc =>
  (rom pc).bind fun w1 =>
  (rom (pc + 1)).bind fun w2 =>
  runInstruction w1 w2 m

/-- `main`'s `while(!halt)` loop, fuel-bounded: checks `halt` before every
fetch, exactly like the source.  (The `usleep` pacing call has no effect on
machine state and is not modelled.) -/
def runLoop (rom : Nat → Option Nat) : Nat → Mach → Option Mach
  | 0, m => some m
  | fuel + 1, m =>
      if m.halt then some m
      else (cycleStep rom m).bind (runLoop rom fuel)

/-- The reset state: all five registers zero, `halt` false, nothing printed.
The data store is arbitrary at reset (uninitialized RAM), hence a parameter. -/
def initMach (ram0 : Nat → Nat) : Mach :=
  { reg := [0, 0, 0, 0, 0], ram := ram0, output := [], halt := false }

/-- Modelled from the spec: the hardened register access §4.2 demands of a
reimplementation — an index outside `[0, N)` "must fail with an
*InvalidRegister* condition".  The spec itself notes the original design has
no such check; this definition exists only to compare the source's behavior
against the required one. -/
def regGetChecked (l : List Nat) (i : Nat) : Except String Nat :=
  if h : i < l.length then Except.ok (l.get ⟨i, h⟩) else Except.error "InvalidRegister"

/-- The output trace the Fibonacci demo actually produces: Fibonacci numbers
starting at 1, 2 (the duplicate initial 1 is never printed), up to 46368. -/
def fibOutput : List Nat :=
  [1, 2, 3, 5, 8, 13, 21, 34, 55, 89, 144, 233, 377, 610, 987, 1597,
   2584, 4181, 6765, 10946, 17711, 28657, 46368]

/-! ## Arithmetic views of the decoder -/

lemma getNibble1_eq_div (w : Nat) : getNibble1 w = w / 4096 := by
  simp [getNibble1, Nat.shiftRight_eq_div_pow]

lemma getNibble2_eq_div_mod (w : Nat) : getNibble2 w = w / 256 % 16 := by
  have h : (0x000F : Nat) = 2 ^ 4 - 1 := by norm_num
  rw [getNibble2, h, Nat.and_pow_two_sub_one_eq_mod, Nat.shiftRight_eq_div_pow]

lemma getNibble3_eq_div_mod (w : Nat) : getNibble3 w = w / 16 % 16 := by
  have h : (0x000F : Nat) = 2 ^ 4 - 1 := by norm_num
  rw [getNibble3, h, Nat.and_pow_two_sub_one_eq_mod, Nat.shiftRight_eq_div_pow]

lemma getNibble4_eq_mod (w : Nat) : getNibble4 w = w % 16 := by
  have h : (0x000F : Nat) = 2 ^ 4 - 1 := by norm_num
  rw [getNibble4, h, Nat.and_pow_two_sub_one_eq_mod]

/-! ## The undefined-opcode (`default`) branch -/

/-- Any opcode outside the six implemented ones (0x0 ADD, 0x5 CMP, 0x6 CPY,
0x7 OUT, 0xA LDV, 0xE J) reaches the `default` branch: `halt` is set and the
only other state change is the pre-dispatch `reg[0] += 2`. -/
lemma runInstruction_undefined (r0 r1 r2 r3 r4 : Nat) (ram : Nat → Nat) (o : List Nat)
    (hb : Bool) (w1 w2 : Nat) (hw1 : w1 < 65536)
    (hop : getNibble1 w1 ∉ ([0x0, 0x5, 0x6, 0x7, 0xA, 0xE] : List Nat)) :
    runInstruction w1 w2 ⟨[r0, r1, r2, r3, r4], ram, o, hb⟩ =
      some ⟨[(r0 + 2) % 65536, r1, r2, r3, r4], ram, o, true⟩ := by
  have h16 : getNibble1 w1 < 16 := by
    rw [getNibble1_eq_div]
    omega
  simp only [runInstruction]
  rw [Nat.mod_eq_of_lt hw1]
  generalize hg : getNibble1 w1 = k at hop h16 ⊢
  interval_cases k <;>
    first
      | exact absurd (by decide) hop
      | rfl

/-- Once halted, the run loop performs no further fetch: it returns the state
unchanged for any fuel. -/
lemma runLoop_halted (rom : Nat → Option Nat) (fuel : Nat) (m : Mach)
    (hm : m.halt = true) : runLoop rom fuel m = some m := by
  cases fuel <;> simp [runLoop, hm]

/-! ## Claims -/

/-- C1 counterexample: with registers A=2, B=3 holding 5 and 3, executing
opcode 0x1 (`0x1234`, i.e. SUB 2 3 4) sets `halt` and leaves register 4 at 0,
whereas the claim demands reg[4] = (5 - 3) mod 65536 = 2 and no halt. -/
theorem sub_claim_counterexample :
    (runInstruction 0x1234 0 ⟨[0, 0, 5, 3, 0], fun _ => 0, [], false⟩).map
        (fun m => (m.reg, m.halt)) = some ([2, 0, 5, 3, 0], true) ∧
    ((5 + (65536 - 3)) % 65536 : Nat) ≠ 0 := by
  exact ⟨rfl, by decide⟩

/-- C1 (amended): opcode 0x1 has no case in `runInstruction`'s switch — SUB is
documented in the source's instruction-set comment but not implemented — so it
falls to the `default` branch: `halt` is set, and apart from the pre-dispatch
PC increment no register, flag, RAM cell or output changes. -/
theorem sub_opcode_unimplemented_halts (r0 r1 r2 r3 r4 : Nat) (ram : Nat → Nat)
    (o : List Nat) (hb : Bool) (n2 n3 n4 : Nat) (h2 : n2 < 16) (h3 : n3 < 16)
    (h4 : n4 < 16) (w2 : Nat) :
    runInstruction (0x1000 + n2 * 256 + n3 * 16 + n4) w2 ⟨[r0, r1, r2, r3, r4], ram, o, hb⟩ =
      some ⟨[(r0 + 2) % 65536, r1, r2, r3, r4], ram, o, true⟩ := by
  apply runInstruction_undefined
  · omega
  · rw [getNibble1_eq_div]
    have h : (0x1000 + n2 * 256 + n3 * 16 + n4) / 4096 = 1 := by omega
    rw [h]
    decide

/-- C1 witness: the amended theorem at the concrete SUB 2 3 4 instruction. -/
theorem sub_opcode_unimplemented_halts_witness :
    runInstruction (0x1000 + 2 * 256 + 3 * 16 + 4) 0 ⟨[0, 0, 5, 3, 0], fun _ => 0, [], false⟩ =
      some ⟨[(0 + 2) % 65536, 0, 5, 3, 0], fun _ => 0, [], true⟩ :=
  sub_opcode_unimplemented_halts 0 0 5 3 0 (fun _ => 0) [] false 2 3 4
    (by decide) (by decide) (by decide) 0

/-- C2 counterexample: the Fibonacci demo's output stream begins `1, 2`, not
`1, 1` as the claim states — the second Fibonacci term 1 is never printed,
because the only OUT in the loop executes after a fresh ADD. -/
theorem fib_output_counterexample :
    (runLoop (romRead fibProgram) 200 (initMach fun _ => 0)).map
        (fun m => m.output.take 2) = some [1, 2] ∧
    ([1, 2] : List Nat) ≠ [1, 1] := by
  exact ⟨rfl, by decide⟩

/-- C2 (amended): loading the 18-word Fibonacci program (remaining program
store filled with the 0xFFFF HLT sentinel) and running from reset prints the
Fibonacci numbers 1, 2, 3, 5, ..., 46368 (one value per OUT; the duplicate
initial 1 is not printed), halting when the 16-bit wraparound (28657 + 46368
≡ 9489) makes the CMP at address 14 set less-than instead of greater-than, so
the jump at 16 is untaken and the sentinel at 18 halts the machine.  The run
takes exactly 142 cycles: after 141 cycles the machine is not yet halted, and
the final state (PC 20, flags 4 = LT, registers 28657/46368/9489) is reached
deterministically — the model is a function of the loaded program alone. -/
theorem fib_run_trace :
    (runLoop (romRead fibProgram) 141 (initMach fun _ => 0)).map
        (fun m => m.halt) = some false ∧
    (runLoop (romRead fibProgram) 142 (initMach fun _ => 0)).map
        (fun m => (m.output, m.reg, m.halt)) =
      some (fibOutput, [20, 4, 28657, 46368, 9489], true) ∧
    (runLoop (romRead fibProgram) 200 (initMach fun _ => 0)).map
        (fun m => (m.output, m.reg, m.halt)) =
      some (fibOutput, [20, 4, 28657, 46368, 9489], true) := by
  exact ⟨rfl, rfl, rfl⟩

/-- C5: HLT (0xF) and every opcode with no defined mapping take the `default`
branch: `halt` becomes true and, beyond the run loop's pre-dispatch PC
increment, no register, flag, RAM cell or output changes.  A halted machine is
never stepped again, and the one-instruction HLT program terminates after
exactly one cycle (the reset state is not halted) with no output. -/
theorem hlt_and_undefined_set_halt_only :
    (∀ (r0 r1 r2 r3 r4 : Nat) (ram : Nat → Nat) (o : List Nat) (hb : Bool) (w1 w2 : Nat),
        w1 < 65536 →
        getNibble1 w1 ∉ ([0x0, 0x5, 0x6, 0x7, 0xA, 0xE] : List Nat) →
        runInstruction w1 w2 ⟨[r0, r1, r2, r3, r4], ram, o, hb⟩ =
          some ⟨[(r0 + 2) % 65536, r1, r2, r3, r4], ram, o, true⟩) ∧
    (∀ (rom : Nat → Option Nat) (fuel : Nat) (m : Mach),
        m.halt = true → runLoop rom fuel m = some m) ∧
    (initMach fun _ => 0).halt = false ∧
    (runLoop (romRead hltProgram) 1 (initMach fun _ => 0)).map
        (fun m => (m.output, m.halt)) = some ([], true) := by
  refine ⟨?_, runLoop_halted, rfl, rfl⟩
  intro r0 r1 r2 r3 r4 ram o hb w1 w2 hw1 hop
  exact runInstruction_undefined r0 r1 r2 r3 r4 ram o hb w1 w2 hw1 hop

/-- C5 witness: the general part applied to the HLT instruction 0xF000 at the
reset state. -/
theorem hlt_and_undefined_set_halt_only_witness :
    runInstruction 0xF000 0 ⟨[0, 0, 0, 0, 0], fun _ => 0, [], false⟩ =
      some ⟨[(0 + 2) % 65536, 0, 0, 0, 0], fun _ => 0, [], true⟩ :=
  hlt_and_undefined_set_halt_only.1 0 0 0 0 0 (fun _ => 0) [] false 0xF000 0
    (by decide) (by decide)

/-- C6 (code bug): the source declares `uint16_t ROM[0xFFFF]` and
`uint16_t RAM[0xFFFF]`, i.e. 65535-word banks — its own comment asserts
"0xFFFF = 2^16 = 65536", which is false — so address 65535 is NOT a valid
index.  Concretely: load the program `[0xE200, 0xFFFE]` (unconditional jump to
0xFFFE); the jump lands inside the array, but the run loop's fetch of the
second instruction word then reads `ROM[0xFFFF]`, out of bounds, so the
machine has no defined behavior (`none`). -/
theorem memory_bank_size_bug :
    romSize = 65535 ∧ ramSize = 65535 ∧ ¬(65535 < romSize) ∧
    romRead jumpHighProgram 0xFFFE = some 0xFFFF ∧
    romRead jumpHighProgram 0xFFFF = none ∧
    runLoop (romRead jumpHighProgram) 2 (initMach fun _ => 0) = none := by
  exact ⟨rfl, rfl, by decide, rfl, rfl, rfl⟩

/-- C8 counterexample: executing ADD with register selector f3 = 5 (outside
[0,5)) gives the source's unchecked out-of-bounds array read — undefined
behavior, modelled as `none` — not an *InvalidRegister* fault; the
spec-modelled checked access would have failed with `InvalidRegister`. -/
theorem invalid_register_counterexample :
    runInstruction 0x0534 0 ⟨[0, 0, 7, 0, 0], fun _ => 0, [], false⟩ = none ∧
    regGet [0, 0, 7, 0, 0] 5 = none ∧
    regGetChecked [0, 0, 7, 0, 0] 5 = Except.error "InvalidRegister" := by
  exact ⟨rfl, rfl, rfl⟩

/-- C8 (amended): the source performs no bounds check on register selectors:
`reg[i]` with i ≥ 5 is a raw out-of-bounds array access (undefined behavior,
modelled as `none`), both for reads and for writes, and an ADD whose first
source selector is out of range consequently has no defined result at all. -/
theorem invalid_register_unchecked (l : List Nat) (i v : Nat) (hl : l.length = 5)
    (hi : 5 ≤ i) :
    regGet l i = none ∧ regSet l i v = none := by
  constructor
  · exact List.get?_eq_none.mpr (by omega)
  · rw [regSet, if_neg (by omega)]

/-- C8 witness: the amended theorem at selector 5 on a 5-register file. -/
theorem invalid_register_unchecked_witness :
    regGet [0, 0, 7, 0, 0] 6 = none ∧ regSet [0, 0, 7, 0, 0] 6 9 = none :=
  invalid_register_unchecked [0, 0, 7, 0, 0] 6 9 (by decide) (by decide)

/-! ## The CMP flag computation -/

/-- The value of the flags register after CMP's three clearing `setbit` calls. -/
def flagsCleared (f0 : Nat) : Nat :=
  setbit (setbit (setbit f0 0 false) 1 false) 2 false

/-- The value of the flags register at the end of the CMP case: the cleared
flags with the single applicable comparison bit set (the final `else if` of
the source is kept verbatim, including its unreachable fall-through). -/
def cmpResultFlags (f0 a b : Nat) : Nat :=
  if a > b then setbit (flagsCleared f0) 0 true
  else if a = b then setbit (flagsCleared f0) 1 true
  else if a < b then setbit (flagsCleared f0) 2 true
  else flagsCleared f0

lemma testBit_setbit_true (x p i : Nat) (hp : p < 16) (hi : i < 16) :
    (setbit x p true).testBit i = if i = p then true else x.testBit i := by
  have h2p : (1 <<< p) % 65536 = 2 ^ p := by
    rw [Nat.shiftLeft_eq, one_mul, Nat.mod_eq_of_lt]
    calc 2 ^ p < 2 ^ 16 := Nat.pow_lt_pow_right (by norm_num) hp
    _ = 65536 := by norm_num
  have h65536 : (65536 : Nat) = 2 ^ 16 := by norm_num
  simp only [setbit, h2p]
  rw [ite_true, h65536, Nat.testBit_mod_two_pow, Nat.testBit_lor]
  by_cases h : i = p
  · subst h
    rw [if_pos rfl, Nat.testBit_two_pow_self]
    simp [hi]
  · rw [if_neg h, Nat.testBit_two_pow_of_ne (fun hc => h hc.symm)]
    simp [hi]

lemma testBit_setbit_false (x p i : Nat) (hp : p < 16) (hi : i < 16) :
    (setbit x p false).testBit i = if i = p then false else x.testBit i := by
  have h2p : (1 <<< p) % 65536 = 2 ^ p := by
    rw [Nat.shiftLeft_eq, one_mul, Nat.mod_eq_of_lt]
    calc 2 ^ p < 2 ^ 16 := Nat.pow_lt_pow_right (by norm_num) hp
    _ = 65536 := by norm_num
  have h65535 : (65535 : Nat) = 2 ^ 16 - 1 := by norm_num
  simp only [setbit, h2p]
  rw [if_neg Bool.false_ne_true, Nat.testBit_land, Nat.testBit_xor, h65535,
    Nat.testBit_two_pow_sub_one]
  by_cases h : i = p
  · subst h
    rw [if_pos rfl, Nat.testBit_two_pow_self]
    simp [hi]
  · rw [if_neg h, Nat.testBit_two_pow_of_ne (fun hc => h hc.symm)]
    simp [hi]

lemma cmpResultFlags_testBit (f0 a b : Nat) :
    (cmpResultFlags f0 a b).testBit 0 = decide (a > b) ∧
    (cmpResultFlags f0 a b).testBit 1 = decide (a = b) ∧
    (cmpResultFlags f0 a b).testBit 2 = decide (a < b) ∧
    (∀ i, 3 ≤ i → i ≤ 15 → (cmpResultFlags f0 a b).testBit i = f0.testBit i) := by
  have hcl : ∀ i, i < 16 →
      (flagsCleared f0).testBit i = if i ≤ 2 then false else f0.testBit i := by
    intro i hi
    rw [flagsCleared, testBit_setbit_false _ _ _ (by norm_num) hi,
      testBit_setbit_false _ _ _ (by norm_num) hi,
      testBit_setbit_false _ _ _ (by norm_num) hi]
    by_cases h0 : i = 0
    · subst h0; rfl
    by_cases h1 : i = 1
    · subst h1; rfl
    by_cases h2 : i = 2
    · subst h2; rfl
    rw [if_neg h2, if_neg h1, if_neg h0, if_neg (by omega)]
  rcases Nat.lt_trichotomy a b with h | h | h
  · have hgt : ¬ a > b := by omega
    have heq : ¬ a = b := by omega
    rw [cmpResultFlags, if_neg hgt, if_neg heq, if_pos h]
    refine ⟨?_, ?_, ?_, ?_⟩
    · rw [testBit_setbit_true _ _ _ (by norm_num) (by norm_num), if_neg (by omega),
        hcl 0 (by norm_num), if_pos (by norm_num)]
      simp [hgt]
    · rw [testBit_setbit_true _ _ _ (by norm_num) (by norm_num), if_neg (by omega),
        hcl 1 (by norm_num), if_pos (by norm_num)]
      simp [heq]
    · rw [testBit_setbit_true _ _ _ (by norm_num) (by norm_num), if_pos rfl]
      simp [h]
    · intro i h3 h15
      rw [testBit_setbit_true _ _ _ (by norm_num) (by omega), if_neg (by omega),
        hcl i (by omega), if_neg (by omega)]
  · have hgt : ¬ a > b := by omega
    rw [cmpResultFlags, if_neg hgt, if_pos h]
    refine ⟨?_, ?_, ?_, ?_⟩
    · rw [testBit_setbit_true _ _ _ (by norm_num) (by norm_num), if_neg (by omega),
        hcl 0 (by norm_num), if_pos (by norm_num)]
      simp [hgt]
    · rw [testBit_setbit_true _ _ _ (by norm_num) (by norm_num), if_pos rfl]
      simp [h]
    · rw [testBit_setbit_true _ _ _ (by norm_num) (by norm_num), if_neg (by omega),
        hcl 2 (by norm_num), if_pos (by norm_num)]
      simp [h]
    · intro i h3 h15
      rw [testBit_setbit_true _ _ _ (by norm_num) (by omega), if_neg (by omega),
        hcl i (by omega), if_neg (by omega)]
  · have hgt : a > b := h
    have heq : ¬ a = b := by omega
    have hlt : ¬ a < b := by omega
    rw [cmpResultFlags, if_pos hgt]
    refine ⟨?_, ?_, ?_, ?_⟩
    · rw [testBit_setbit_true _ _ _ (by norm_num) (by norm_num), if_pos rfl]
      simp [hgt]
    · rw [testBit_setbit_true _ _ _ (by norm_num) (by norm_num), if_neg (by omega),
        hcl 1 (by norm_num), if_pos (by norm_num)]
      simp [heq]
    · rw [testBit_setbit_true _ _ _ (by norm_num) (by norm_num), if_neg (by omega),
        hcl 2 (by norm_num), if_pos (by norm_num)]
      simp [hlt]
    · intro i h3 h15
      rw [testBit_setbit_true _ _ _ (by norm_num) (by omega), if_neg (by omega),
        hcl i (by omega), if_neg (by omega)]

lemma cmpResultFlags_exactly_one (f0 a b : Nat) :
    ((cmpResultFlags f0 a b).testBit 0 = true ∧ (cmpResultFlags f0 a b).testBit 1 = false ∧
      (cmpResultFlags f0 a b).testBit 2 = false) ∨
    ((cmpResultFlags f0 a b).testBit 0 = false ∧ (cmpResultFlags f0 a b).testBit 1 = true ∧
      (cmpResultFlags f0 a b).testBit 2 = false) ∨
    ((cmpResultFlags f0 a b).testBit 0 = false ∧ (cmpResultFlags f0 a b).testBit 1 = false ∧
      (cmpResultFlags f0 a b).testBit 2 = true) := by
  obtain ⟨hb0, hb1, hb2, _⟩ := cmpResultFlags_testBit f0 a b
  rcases Nat.lt_trichotomy a b with h | h | h
  · right; right
    rw [hb0, hb1, hb2]
    simp only [decide_eq_true_eq, decide_eq_false_iff_not]
    refine ⟨by omega, by omega, by simpa using h⟩
  · right; left
    rw [hb0, hb1, hb2]
    simp only [decide_eq_true_eq, decide_eq_false_iff_not]
    refine ⟨by omega, by simpa using h, by omega⟩
  · left
    rw [hb0, hb1, hb2]
    simp only [decide_eq_true_eq, decide_eq_false_iff_not]
    refine ⟨by simpa using h, by omega, by omega⟩

/-- C3 counterexample: CMP with f2 = 1 (the flags register itself) and f3 = 2,
starting from flags = 1 (GT bit set) and reg[2] = 0.  The pre-instruction
values are a = 1 > b = 0, so the claim demands the greater-than bit; but the
source clears flag bits 0-2 *before* reading the operands, so it compares
0 with 0 and sets the equal bit: the final flags value is 2, whose bit 0 is
clear. -/
theorem cmp_claim_counterexample :
    (runInstruction 0x5120 0 ⟨[0, 1, 0, 0, 0], fun _ => 0, [], false⟩).map
        (fun m => m.reg.getD 1 0) = some 2 ∧
    (1 : Nat) > 0 ∧ Nat.testBit 2 0 = false :=
  ⟨rfl, by decide, by decide⟩

/-- C3 (amended): after CMP with any selectors f2 = n2, f3 = n3 < 5, exactly
one of flag bits 0 (GT), 1 (EQ), 2 (LT) is set, bits 3-15 of the flags
register keep their pre-instruction values, and the set bit matches the
unsigned comparison of the values the source reads at dispatch time — which
equal the registers' pre-instruction values whenever the selectors are ≥ 2
(selector 0 reads the already-incremented PC, selector 1 reads the
already-cleared flags). -/
theorem cmp_flags_spec (r0 r1 r2 r3 r4 : Nat) (ram : Nat → Nat) (o : List Nat)
    (hb : Bool) (n2 n3 : Nat) (h2 : n2 < 5) (h3 : n3 < 5) (w2 : Nat) :
    ∃ a b,
      ([(r0 + 2) % 65536, flagsCleared r1, r2, r3, r4] : List Nat).get? n2 = some a ∧
      ([(r0 + 2) % 65536, flagsCleared r1, r2, r3, r4] : List Nat).get? n3 = some b ∧
      runInstruction (0x5000 + n2 * 256 + n3 * 16) w2 ⟨[r0, r1, r2, r3, r4], ram, o, hb⟩ =
        some ⟨[(r0 + 2) % 65536, cmpResultFlags r1 a b, r2, r3, r4], ram, o, hb⟩ ∧
      ((cmpResultFlags r1 a b).testBit 0 = decide (a > b) ∧
       (cmpResultFlags r1 a b).testBit 1 = decide (a = b) ∧
       (cmpResultFlags r1 a b).testBit 2 = decide (a < b)) ∧
      (((cmpResultFlags r1 a b).testBit 0 = true ∧ (cmpResultFlags r1 a b).testBit 1 = false ∧
          (cmpResultFlags r1 a b).testBit 2 = false) ∨
       ((cmpResultFlags r1 a b).testBit 0 = false ∧ (cmpResultFlags r1 a b).testBit 1 = true ∧
          (cmpResultFlags r1 a b).testBit 2 = false) ∨
       ((cmpResultFlags r1 a b).testBit 0 = false ∧ (cmpResultFlags r1 a b).testBit 1 = false ∧
          (cmpResultFlags r1 a b).testBit 2 = true)) ∧
      (∀ i, 3 ≤ i → i ≤ 15 → (cmpResultFlags r1 a b).testBit i = r1.testBit i) ∧
      (2 ≤ n2 → a = ([r0, r1, r2, r3, r4] : List Nat).getD n2 0) ∧
      (2 ≤ n3 → b = ([r0, r1, r2, r3, r4] : List Nat).getD n3 0) := by
  interval_cases n2 <;> interval_cases n3 <;>
    refine ⟨_, _, rfl, rfl, rfl,
      ⟨(cmpResultFlags_testBit r1 _ _).1, (cmpResultFlags_testBit r1 _ _).2.1,
        (cmpResultFlags_testBit r1 _ _).2.2.1⟩,
      cmpResultFlags_exactly_one r1 _ _,
      (cmpResultFlags_testBit r1 _ _).2.2.2, ?_, ?_⟩ <;>
    first
      | (intro h; exact absurd h (by decide))
      | (intro h; rfl)

/-- C3 witness: CMP 2 3 on registers holding 5 and 3. -/
theorem cmp_flags_spec_witness :
    ∃ a b,
      ([(0 + 2) % 65536, flagsCleared 0, 5, 3, 0] : List Nat).get? 2 = some a ∧
      ([(0 + 2) % 65536, flagsCleared 0, 5, 3, 0] : List Nat).get? 3 = some b ∧
      runInstruction (0x5000 + 2 * 256 + 3 * 16) 0 ⟨[0, 0, 5, 3, 0], fun _ => 0, [], false⟩ =
        some ⟨[(0 + 2) % 65536, cmpResultFlags 0 a b, 5, 3, 0], fun _ => 0, [], false⟩ ∧
      ((cmpResultFlags 0 a b).testBit 0 = decide (a > b) ∧
       (cmpResultFlags 0 a b).testBit 1 = decide (a = b) ∧
       (cmpResultFlags 0 a b).testBit 2 = decide (a < b)) ∧
      (((cmpResultFlags 0 a b).testBit 0 = true ∧ (cmpResultFlags 0 a b).testBit 1 = false ∧
          (cmpResultFlags 0 a b).testBit 2 = false) ∨
       ((cmpResultFlags 0 a b).testBit 0 = false ∧ (cmpResultFlags 0 a b).testBit 1 = true ∧
          (cmpResultFlags 0 a b).testBit 2 = false) ∨
       ((cmpResultFlags 0 a b).testBit 0 = false ∧ (cmpResultFlags 0 a b).testBit 1 = false ∧
          (cmpResultFlags 0 a b).testBit 2 = true)) ∧
      (∀ i, 3 ≤ i → i ≤ 15 → (cmpResultFlags 0 a b).testBit i = Nat.testBit 0 i) ∧
      (2 ≤ 2 → a = ([0, 0, 5, 3, 0] : List Nat).getD 2 0) ∧
      (2 ≤ 3 → b = ([0, 0, 5, 3, 0] : List Nat).getD 3 0) :=
  cmp_flags_spec 0 0 5 3 0 (fun _ => 0) [] false 2 3 (by decide) (by decide) 0

/-- C9 counterexample: ADD with f2 = 0 (the program counter), f3 = 2, f4 = 3
from PC = 0 and reg[2] = 7.  The pre-instruction values are a = 0 and b = 7,
so the claim demands reg[3] = 7; but the run loop's pre-dispatch increment has
already set the PC to 2 when the operand is read, so the code stores 9. -/
theorem add_claim_counterexample :
    (runInstruction 0x0023 0 ⟨[0, 0, 7, 0, 0], fun _ => 0, [], false⟩).map
        (fun m => m.reg.getD 3 0) = some 9 ∧ (9 : Nat) ≠ (0 + 7) % 65536 :=
  ⟨rfl, by decide⟩

/-- C9 (amended): ADD with source selectors f2 = n2 ≠ 0, f3 = n3 ≠ 0 (both
< 5) and any destination f4 = n4 < 5 stores exactly (a + b) mod 65536 into
reg[n4], where a and b are the pre-instruction values of registers n2 and n3;
the instruction completes normally (halt unchanged) — overflow is never an
error.  (Selector 0 is excluded because the pre-dispatch PC increment happens
before the operands are read.) -/
theorem add_wraps (r0 r1 r2 r3 r4 : Nat) (ram : Nat → Nat) (o : List Nat) (hb : Bool)
    (n2 n3 n4 : Nat) (h2 : n2 < 5) (h3 : n3 < 5) (h4 : n4 < 5) (h2p : n2 ≠ 0)
    (h3p : n3 ≠ 0) (w2 : Nat) :
    ∃ m', runInstruction (n2 * 256 + n3 * 16 + n4) w2 ⟨[r0, r1, r2, r3, r4], ram, o, hb⟩ =
        some m' ∧
      m'.reg.get? n4 =
        some ((([r0, r1, r2, r3, r4] : List Nat).getD n2 0 +
          ([r0, r1, r2, r3, r4] : List Nat).getD n3 0) % 65536) ∧
      m'.halt = hb := by
  interval_cases n2 <;> interval_cases n3 <;> interval_cases n4 <;>
    first
      | exact absurd rfl h2p
      | exact absurd rfl h3p
      | exact ⟨_, rfl, rfl, rfl⟩

/-- C9 witness: ADD 2 3 4 on registers holding 65535 and 3 — the sum wraps to
(65535 + 3) mod 65536 = 2 with no error. -/
theorem add_wraps_witness :
    ∃ m', runInstruction (2 * 256 + 3 * 16 + 4) 0 ⟨[0, 0, 65535, 3, 0], fun _ => 0, [], false⟩ =
        some m' ∧
      m'.reg.get? 4 =
        some ((([0, 0, 65535, 3, 0] : List Nat).getD 2 0 +
          ([0, 0, 65535, 3, 0] : List Nat).getD 3 0) % 65536) ∧
      m'.halt = false :=
  add_wraps 0 0 65535 3 0 (fun _ => 0) [] false 2 3 4 (by decide) (by decide) (by decide)
    (by decide) (by decide) 0


/-! ## A case-explicit description of one instruction -/

/-- Case-explicit form of `runInstruction` on the 5-register machine: one
top-level case per opcode, every register access spelled out as a bounds
test.  This is only a proof device: `runInstruction_eq_stepCases` proves it
equal to `runInstruction`, and the frame/PC theorems below reason on it. -/
def stepCases (w1 w2 r0 r1 r2 r3 r4 : Nat) (ram : Nat → Nat) (o : List Nat)
    (hb : Bool) : Option Mach :=
  let pcL : List Nat := [(r0 + 2) % 65536, r1, r2, r3, r4]
  let n1 := getNibble1 (w1 % 65536)
  let n2 := getNibble2 (w1 % 65536)
  let n3 := getNibble3 (w1 % 65536)
  let n4 := getNibble4 (w1 % 65536)
  let addr := w2 % 65536
  if n1 = 0x0 then
    if n2 < 5 ∧ n3 < 5 ∧ n4 < 5 then
      some ⟨pcL.set n4 ((pcL.getD n2 0 + pcL.getD n3 0) % 65536), ram, o, hb⟩
    else none
  else if n1 = 0x5 then
    if n2 < 5 ∧ n3 < 5 then
      some ⟨[(r0 + 2) % 65536,
        cmpResultFlags r1
          (([(r0 + 2) % 65536, flagsCleared r1, r2, r3, r4] : List Nat).getD n2 0)
          (([(r0 + 2) % 65536, flagsCleared r1, r2, r3, r4] : List Nat).getD n3 0),
        r2, r3, r4], ram, o, hb⟩
    else none
  else if n1 = 0x6 then
    if n2 < 5 ∧ n3 < 5 then some ⟨pcL.set n3 (pcL.getD n2 0), ram, o, hb⟩ else none
  else if n1 = 0x7 then
    if n2 < 5 then some ⟨pcL, ram, o ++ [pcL.getD n2 0], hb⟩ else none
  else if n1 = 0xA then
    if n2 < 5 then some ⟨pcL.set n2 addr, ram, o, hb⟩ else none
  else if n1 = 0xE then
    if n2 = 0 then
      if getbit r1 n3 = 0 then some ⟨[addr, r1, r2, r3, r4], ram, o, hb⟩
      else some ⟨pcL, ram, o, hb⟩
    else if n2 = 1 then
      if getbit r1 n3 ≠ 0 then some ⟨[addr, r1, r2, r3, r4], ram, o, hb⟩
      else some ⟨pcL, ram, o, hb⟩
    else some ⟨[addr, r1, r2, r3, r4], ram, o, hb⟩
  else some ⟨pcL, ram, o, true⟩

lemma runInstruction_eq_stepCases (r0 r1 r2 r3 r4 : Nat) (ram : Nat → Nat)
    (o : List Nat) (hb : Bool) (w1 w2 : Nat) :
    runInstruction w1 w2 ⟨[r0, r1, r2, r3, r4], ram, o, hb⟩ =
      stepCases w1 w2 r0 r1 r2 r3 r4 ram o hb := by
  have h1 : getNibble1 (w1 % 65536) < 16 := by
    rw [getNibble1_eq_div]
    omega
  have h2 : getNibble2 (w1 % 65536) < 16 := by
    rw [getNibble2_eq_div_mod]
    omega
  have h3 : getNibble3 (w1 % 65536) < 16 := by
    rw [getNibble3_eq_div_mod]
    omega
  have h4 : getNibble4 (w1 % 65536) < 16 := by
    rw [getNibble4_eq_mod]
    omega
  simp only [runInstruction, stepCases]
  generalize getNibble1 (w1 % 65536) = k1 at h1 ⊢
  generalize getNibble2 (w1 % 65536) = k2 at h2 ⊢
  generalize getNibble3 (w1 % 65536) = k3 at h3 ⊢
  generalize getNibble4 (w1 % 65536) = k4 at h4 ⊢
  interval_cases k1 <;>
    first
      | rfl
      | (interval_cases k2 <;>
          first
            | rfl
            | (interval_cases k3 <;>
                first
                  | rfl
                  | (interval_cases k4 <;> rfl)))

lemma get0_set_ne (l : List Nat) (i v : Nat) (h : i ≠ 0) :
    (l.set i v).get? 0 = l.get? 0 := by
  cases l with
  | nil => rfl
  | cons a as =>
    cases i with
    | zero => exact absurd rfl h
    | succ n => rfl

lemma get1_set_ne (l : List Nat) (i v : Nat) (h : i ≠ 1) :
    (l.set i v).get? 1 = l.get? 1 := by
  cases l with
  | nil => rfl
  | cons a as =>
    cases i with
    | zero =>
      cases as <;> rfl
    | succ n =>
      cases as with
      | nil => rfl
      | cons b bs =>
        cases n with
        | zero => exact absurd rfl h
        | succ m => rfl

/-- C4 counterexample: LDV 0 (`0xA000`) with literal 0x1234 is not a jump
(opcode 0xA, not 0xE), yet the program counter afterwards is 0x1234, not
pre-instruction + 2 = 2: the destination selector names slot 0. -/
theorem pc_claim_counterexample :
    (runInstruction 0xA000 0x1234 ⟨[0, 0, 0, 0, 0], fun _ => 0, [], false⟩).map
        (fun m => m.reg.getD 0 0) = some 0x1234 ∧
    (0x1234 : Nat) ≠ (0 + 2) % 65536 ∧ getNibble1 0xA000 ≠ 0xE :=
  ⟨rfl, by decide, by decide⟩

/-- C4 (amended): for every instruction that completes, with the proviso that
no destination selector names slot 0 (ADD f4 ≠ 0, CPY f3 ≠ 0, LDV f2 ≠ 0):
a non-jump leaves the PC at its pre-instruction value + 2 mod 65536; a taken
jump (mode 0 with flag bit clear, mode 1 with flag bit set, or mode ≥ 2) sets
the PC to the literal operand; an untaken conditional jump leaves the PC at
pre-instruction value + 2. -/
theorem pc_semantics (r0 r1 r2 r3 r4 : Nat) (ram : Nat → Nat) (o : List Nat)
    (hb : Bool) (w1 w2 : Nat) (hw1 : w1 < 65536) (hw2 : w2 < 65536) (m' : Mach)
    (hsome : runInstruction w1 w2 ⟨[r0, r1, r2, r3, r4], ram, o, hb⟩ = some m') :
    (getNibble1 w1 ≠ 0xE →
      (getNibble1 w1 = 0x0 → getNibble4 w1 ≠ 0) →
      (getNibble1 w1 = 0x6 → getNibble3 w1 ≠ 0) →
      (getNibble1 w1 = 0xA → getNibble2 w1 ≠ 0) →
      m'.reg.get? 0 = some ((r0 + 2) % 65536)) ∧
    (getNibble1 w1 = 0xE → getNibble2 w1 = 0 → getbit r1 (getNibble3 w1) = 0 →
      m'.reg.get? 0 = some w2) ∧
    (getNibble1 w1 = 0xE → getNibble2 w1 = 1 → getbit r1 (getNibble3 w1) ≠ 0 →
      m'.reg.get? 0 = some w2) ∧
    (getNibble1 w1 = 0xE → 2 ≤ getNibble2 w1 → m'.reg.get? 0 = some w2) ∧
    (getNibble1 w1 = 0xE →
      ((getNibble2 w1 = 0 ∧ getbit r1 (getNibble3 w1) ≠ 0) ∨
       (getNibble2 w1 = 1 ∧ getbit r1 (getNibble3 w1) = 0)) →
      m'.reg.get? 0 = some ((r0 + 2) % 65536)) := by
  rw [runInstruction_eq_stepCases] at hsome
  simp only [stepCases] at hsome
  rw [Nat.mod_eq_of_lt hw1, Nat.mod_eq_of_lt hw2] at hsome
  have h1 : getNibble1 w1 < 16 := by rw [getNibble1_eq_div]; omega
  have h2 : getNibble2 w1 < 16 := by rw [getNibble2_eq_div_mod]; omega
  have h3 : getNibble3 w1 < 16 := by rw [getNibble3_eq_div_mod]; omega
  have h4 : getNibble4 w1 < 16 := by rw [getNibble4_eq_mod]; omega
  generalize getNibble1 w1 = k1 at h1 hsome ⊢
  generalize getNibble2 w1 = k2 at h2 hsome ⊢
  generalize getNibble3 w1 = k3 at h3 hsome ⊢
  generalize getNibble4 w1 = k4 at h4 hsome ⊢
  interval_cases k1
  -- k1 = 0 : ADD
  · rw [if_pos rfl] at hsome
    by_cases hbound : k2 < 5 ∧ k3 < 5 ∧ k4 < 5
    · rw [if_pos hbound] at hsome
      injection hsome with h
      subst h
      refine ⟨?_, fun he => absurd he (by decide), fun he => absurd he (by decide),
        fun he => absurd he (by decide), fun he => absurd he (by decide)⟩
      intro _ hA _ _
      rw [get0_set_ne _ _ _ (hA rfl)]
      rfl
    · rw [if_neg hbound] at hsome
      exact absurd hsome (by simp)
  -- k1 = 1 .. 4 : undefined
  · injection hsome with h
    subst h
    exact ⟨fun _ _ _ _ => rfl, fun he => absurd he (by decide), fun he => absurd he (by decide),
      fun he => absurd he (by decide), fun he => absurd he (by decide)⟩
  · injection hsome with h
    subst h
    exact ⟨fun _ _ _ _ => rfl, fun he => absurd he (by decide), fun he => absurd he (by decide),
      fun he => absurd he (by decide), fun he => absurd he (by decide)⟩
  · injection hsome with h
    subst h
    exact ⟨fun _ _ _ _ => rfl, fun he => absurd he (by decide), fun he => absurd he (by decide),
      fun he => absurd he (by decide), fun he => absurd he (by decide)⟩
  · injection hsome with h
    subst h
    exact ⟨fun _ _ _ _ => rfl, fun he => absurd he (by decide), fun he => absurd he (by decide),
      fun he => absurd he (by decide), fun he => absurd he (by decide)⟩
  -- k1 = 5 : CMP
  · rw [if_neg (by decide), if_pos rfl] at hsome
    by_cases hbound : k2 < 5 ∧ k3 < 5
    · rw [if_pos hbound] at hsome
      injection hsome with h
      subst h
      exact ⟨fun _ _ _ _ => rfl, fun he => absurd he (by decide), fun he => absurd he (by decide),
        fun he => absurd he (by decide), fun he => absurd he (by decide)⟩
    · rw [if_neg hbound] at hsome
      exact absurd hsome (by simp)
  -- k1 = 6 : CPY
  · rw [if_neg (by decide), if_neg (by decide), if_pos rfl] at hsome
    by_cases hbound : k2 < 5 ∧ k3 < 5
    · rw [if_pos hbound] at hsome
      injection hsome with h
      subst h
      refine ⟨?_, fun he => absurd he (by decide), fun he => absurd he (by decide),
        fun he => absurd he (by decide), fun he => absurd he (by decide)⟩
      intro _ _ hB _
      rw [get0_set_ne _ _ _ (hB rfl)]
      rfl
    · rw [if_neg hbound] at hsome
      exact absurd hsome (by simp)
  -- k1 = 7 : OUT
  · rw [if_neg (by decide), if_neg (by decide), if_neg (by decide), if_pos rfl] at hsome
    by_cases hbound : k2 < 5
    · rw [if_pos hbound] at hsome
      injection hsome with h
      subst h
      exact ⟨fun _ _ _ _ => rfl, fun he => absurd he (by decide), fun he => absurd he (by decide),
        fun he => absurd he (by decide), fun he => absurd he (by decide)⟩
    · rw [if_neg hbound] at hsome
      exact absurd hsome (by simp)
  -- k1 = 8, 9 : undefined
  · injection hsome with h
    subst h
    exact ⟨fun _ _ _ _ => rfl, fun he => absurd he (by decide), fun he => absurd he (by decide),
      fun he => absurd he (by decide), fun he => absurd he (by decide)⟩
  · injection hsome with h
    subst h
    exact ⟨fun _ _ _ _ => rfl, fun he => absurd he (by decide), fun he => absurd he (by decide),
      fun he => absurd he (by decide), fun he => absurd he (by decide)⟩
  -- k1 = 10 : LDV
  · rw [if_neg (by decide), if_neg (by decide), if_neg (by decide), if_neg (by decide),
      if_pos rfl] at hsome
    by_cases hbound : k2 < 5
    · rw [if_pos hbound] at hsome
      injection hsome with h
      subst h
      refine ⟨?_, fun he => absurd he (by decide), fun he => absurd he (by decide),
        fun he => absurd he (by decide), fun he => absurd he (by decide)⟩
      intro _ _ _ hC
      rw [get0_set_ne _ _ _ (hC rfl)]
      rfl
    · rw [if_neg hbound] at hsome
      exact absurd hsome (by simp)
  -- k1 = 11, 12, 13 : undefined
  · injection hsome with h
    subst h
    exact ⟨fun _ _ _ _ => rfl, fun he => absurd he (by decide), fun he => absurd he (by decide),
      fun he => absurd he (by decide), fun he => absurd he (by decide)⟩
  · injection hsome with h
    subst h
    exact ⟨fun _ _ _ _ => rfl, fun he => absurd he (by decide), fun he => absurd he (by decide),
      fun he => absurd he (by decide), fun he => absurd he (by decide)⟩
  · injection hsome with h
    subst h
    exact ⟨fun _ _ _ _ => rfl, fun he => absurd he (by decide), fun he => absurd he (by decide),
      fun he => absurd he (by decide), fun he => absurd he (by decide)⟩
  -- k1 = 14 : J
  · rw [if_neg (by decide), if_neg (by decide), if_neg (by decide), if_neg (by decide),
      if_neg (by decide), if_pos rfl] at hsome
    by_cases hk2 : k2 = 0
    · subst hk2
      rw [if_pos rfl] at hsome
      by_cases hbit : getbit r1 k3 = 0
      · rw [if_pos hbit] at hsome
        injection hsome with h
        subst h
        refine ⟨fun hne => absurd rfl hne, fun _ _ _ => rfl,
          fun _ h01 => absurd h01 (by decide), fun _ h2le => absurd h2le (by decide), ?_⟩
        intro _ hc
        rcases hc with ⟨_, hne0⟩ | ⟨h01, _⟩
        · exact absurd hbit hne0
        · exact absurd h01 (by decide)
      · rw [if_neg hbit] at hsome
        injection hsome with h
        subst h
        refine ⟨fun hne => absurd rfl hne, ?_, fun _ h01 => absurd h01 (by decide),
          fun _ h2le => absurd h2le (by decide), fun _ _ => rfl⟩
        intro _ _ hb0
        exact absurd hb0 hbit
    · rw [if_neg hk2] at hsome
      by_cases hk21 : k2 = 1
      · subst hk21
        rw [if_pos rfl] at hsome
        by_cases hbit : getbit r1 k3 = 0
        · rw [if_neg (fun hc => hc hbit)] at hsome
          injection hsome with h
          subst h
          refine ⟨fun hne => absurd rfl hne, fun _ h10 => absurd h10 (by decide),
            fun _ _ hne0 => absurd hbit hne0, fun _ h2le => absurd h2le (by decide), ?_⟩
          intro _ hc
          rcases hc with ⟨h10, _⟩ | ⟨_, _⟩
          · exact absurd h10 (by decide)
          · rfl
        · rw [if_pos hbit] at hsome
          injection hsome with h
          subst h
          refine ⟨fun hne => absurd rfl hne, fun _ h10 => absurd h10 (by decide),
            fun _ _ _ => rfl, fun _ h2le => absurd h2le (by decide), ?_⟩
          intro _ hc
          rcases hc with ⟨h10, _⟩ | ⟨_, hb0⟩
          · exact absurd h10 (by decide)
          · exact absurd hb0 hbit
      · rw [if_neg hk21] at hsome
        injection hsome with h
        subst h
        refine ⟨fun hne => absurd rfl hne, fun _ h0 => absurd h0 hk2,
          fun _ h1 => absurd h1 hk21, fun _ _ => rfl, ?_⟩
        intro _ hc
        rcases hc with ⟨h0, _⟩ | ⟨h1, _⟩
        · exact absurd h0 hk2
        · exact absurd h1 hk21
  -- k1 = 15 : undefined
  · injection hsome with h
    subst h
    exact ⟨fun _ _ _ _ => rfl, fun he => absurd he (by decide), fun he => absurd he (by decide),
      fun he => absurd he (by decide), fun he => absurd he (by decide)⟩

/-- C7 counterexample: CPY 2 1 (`0x6210`) writes register slot 1 (the flags
register) although its opcode 0x6 is not the comparison opcode 0x5: the
pre-instruction flags value 0 becomes 7. -/
theorem slot_write_claim_counterexample :
    (runInstruction 0x6210 0 ⟨[0, 0, 7, 0, 0], fun _ => 0, [], false⟩).map
        (fun m => m.reg.getD 1 0) = some 7 ∧
    (7 : Nat) ≠ 0 ∧ getNibble1 0x6210 ≠ 0x5 :=
  ⟨rfl, by decide, by decide⟩

/-- C7 (amended): for every instruction that completes, provided no
destination selector (ADD f4, CPY f3, LDV f2) names slot 0 or slot 1: slot 0
is written only by the pre-dispatch increment and by a jump (for a non-jump it
equals pre-instruction value + 2), and slot 1 is written only by CMP (for any
other opcode it is unchanged).  An instruction whose destination selector is
0 or 1 writes the PC or the flags directly, which the original claim does not
allow for. -/
theorem reg_write_discipline (r0 r1 r2 r3 r4 : Nat) (ram : Nat → Nat) (o : List Nat)
    (hb : Bool) (w1 w2 : Nat) (hw1 : w1 < 65536) (hw2 : w2 < 65536) (m' : Mach)
    (hsome : runInstruction w1 w2 ⟨[r0, r1, r2, r3, r4], ram, o, hb⟩ = some m') :
    (getNibble1 w1 ≠ 0xE →
      (getNibble1 w1 = 0x0 → getNibble4 w1 ≠ 0) →
      (getNibble1 w1 = 0x6 → getNibble3 w1 ≠ 0) →
      (getNibble1 w1 = 0xA → getNibble2 w1 ≠ 0) →
      m'.reg.get? 0 = some ((r0 + 2) % 65536)) ∧
    (getNibble1 w1 ≠ 0x5 →
      (getNibble1 w1 = 0x0 → getNibble4 w1 ≠ 1) →
      (getNibble1 w1 = 0x6 → getNibble3 w1 ≠ 1) →
      (getNibble1 w1 = 0xA → getNibble2 w1 ≠ 1) →
      m'.reg.get? 1 = some r1) := by
  rw [runInstruction_eq_stepCases] at hsome
  simp only [stepCases] at hsome
  rw [Nat.mod_eq_of_lt hw1, Nat.mod_eq_of_lt hw2] at hsome
  have h1 : getNibble1 w1 < 16 := by rw [getNibble1_eq_div]; omega
  have h2 : getNibble2 w1 < 16 := by rw [getNibble2_eq_div_mod]; omega
  have h3 : getNibble3 w1 < 16 := by rw [getNibble3_eq_div_mod]; omega
  have h4 : getNibble4 w1 < 16 := by rw [getNibble4_eq_mod]; omega
  generalize getNibble1 w1 = k1 at h1 hsome ⊢
  generalize getNibble2 w1 = k2 at h2 hsome ⊢
  generalize getNibble3 w1 = k3 at h3 hsome ⊢
  generalize getNibble4 w1 = k4 at h4 hsome ⊢
  interval_cases k1
  -- k1 = 0 : ADD
  · rw [if_pos rfl] at hsome
    by_cases hbound : k2 < 5 ∧ k3 < 5 ∧ k4 < 5
    · rw [if_pos hbound] at hsome
      injection hsome with h
      subst h
      refine ⟨?_, ?_⟩
      · intro _ hA _ _
        rw [get0_set_ne _ _ _ (hA rfl)]
        rfl
      · intro _ hA1 _ _
        rw [get1_set_ne _ _ _ (hA1 rfl)]
        rfl
    · rw [if_neg hbound] at hsome
      exact absurd hsome (by simp)
  -- k1 = 1 .. 4 : undefined
  · injection hsome with h
    subst h
    exact ⟨fun _ _ _ _ => rfl, fun _ _ _ _ => rfl⟩
  · injection hsome with h
    subst h
    exact ⟨fun _ _ _ _ => rfl, fun _ _ _ _ => rfl⟩
  · injection hsome with h
    subst h
    exact ⟨fun _ _ _ _ => rfl, fun _ _ _ _ => rfl⟩
  · injection hsome with h
    subst h
    exact ⟨fun _ _ _ _ => rfl, fun _ _ _ _ => rfl⟩
  -- k1 = 5 : CMP
  · rw [if_neg (by decide), if_pos rfl] at hsome
    by_cases hbound : k2 < 5 ∧ k3 < 5
    · rw [if_pos hbound] at hsome
      injection hsome with h
      subst h
      exact ⟨fun _ _ _ _ => rfl, fun hne _ _ _ => absurd rfl hne⟩
    · rw [if_neg hbound] at hsome
      exact absurd hsome (by simp)
  -- k1 = 6 : CPY
  · rw [if_neg (by decide), if_neg (by decide), if_pos rfl] at hsome
    by_cases hbound : k2 < 5 ∧ k3 < 5
    · rw [if_pos hbound] at hsome
      injection hsome with h
      subst h
      refine ⟨?_, ?_⟩
      · intro _ _ hB _
        rw [get0_set_ne _ _ _ (hB rfl)]
        rfl
      · intro _ _ hB1 _
        rw [get1_set_ne _ _ _ (hB1 rfl)]
        rfl
    · rw [if_neg hbound] at hsome
      exact absurd hsome (by simp)
  -- k1 = 7 : OUT
  · rw [if_neg (by decide), if_neg (by decide), if_neg (by decide), if_pos rfl] at hsome
    by_cases hbound : k2 < 5
    · rw [if_pos hbound] at hsome
      injection hsome with h
      subst h
      exact ⟨fun _ _ _ _ => rfl, fun _ _ _ _ => rfl⟩
    · rw [if_neg hbound] at hsome
      exact absurd hsome (by simp)
  -- k1 = 8, 9 : undefined
  · injection hsome with h
    subst h
    exact ⟨fun _ _ _ _ => rfl, fun _ _ _ _ => rfl⟩
  · injection hsome with h
    subst h
    exact ⟨fun _ _ _ _ => rfl, fun _ _ _ _ => rfl⟩
  -- k1 = 10 : LDV
  · rw [if_neg (by decide), if_neg (by decide), if_neg (by decide), if_neg (by decide),
      if_pos rfl] at hsome
    by_cases hbound : k2 < 5
    · rw [if_pos hbound] at hsome
      injection hsome with h
      subst h
      refine ⟨?_, ?_⟩
      · intro _ _ _ hC
        rw [get0_set_ne _ _ _ (hC rfl)]
        rfl
      · intro _ _ _ hC1
        rw [get1_set_ne _ _ _ (hC1 rfl)]
        rfl
    · rw [if_neg hbound] at hsome
      exact absurd hsome (by simp)
  -- k1 = 11, 12, 13 : undefined
  · injection hsome with h
    subst h
    exact ⟨fun _ _ _ _ => rfl, fun _ _ _ _ => rfl⟩
  · injection hsome with h
    subst h
    exact ⟨fun _ _ _ _ => rfl, fun _ _ _ _ => rfl⟩
  · injection hsome with h
    subst h
    exact ⟨fun _ _ _ _ => rfl, fun _ _ _ _ => rfl⟩
  -- k1 = 14 : J
  · rw [if_neg (by decide), if_neg (by decide), if_neg (by decide), if_neg (by decide),
      if_neg (by decide), if_pos rfl] at hsome
    by_cases hk2 : k2 = 0
    · subst hk2
      rw [if_pos rfl] at hsome
      by_cases hbit : getbit r1 k3 = 0
      · rw [if_pos hbit] at hsome
        injection hsome with h
        subst h
        exact ⟨fun hne => absurd rfl hne, fun _ _ _ _ => rfl⟩
      · rw [if_neg hbit] at hsome
        injection hsome with h
        subst h
        exact ⟨fun hne => absurd rfl hne, fun _ _ _ _ => rfl⟩
    · rw [if_neg hk2] at hsome
      by_cases hk21 : k2 = 1
      · subst hk21
        rw [if_pos rfl] at hsome
        by_cases hbit : getbit r1 k3 = 0
        · rw [if_neg (fun hc => hc hbit)] at hsome
          injection hsome with h
          subst h
          exact ⟨fun hne => absurd rfl hne, fun _ _ _ _ => rfl⟩
        · rw [if_pos hbit] at hsome
          injection hsome with h
          subst h
          exact ⟨fun hne => absurd rfl hne, fun _ _ _ _ => rfl⟩
      · rw [if_neg hk21] at hsome
        injection hsome with h
        subst h
        exact ⟨fun hne => absurd rfl hne, fun _ _ _ _ => rfl⟩
  -- k1 = 15 : undefined
  · injection hsome with h
    subst h
    exact ⟨fun _ _ _ _ => rfl, fun _ _ _ _ => rfl⟩

set_option maxHeartbeats 1000000

/-- C10: the execution engine never reads or writes the data store: whatever
instruction completes from a 5-register state, the RAM function of the result
is exactly the input RAM, and replacing the RAM contents by arbitrary other
contents changes nothing in the result except that same untouched RAM field —
so no instruction result depends on RAM. -/
theorem ram_never_touched (r0 r1 r2 r3 r4 : Nat) (ram ramB : Nat → Nat) (o : List Nat)
    (hb : Bool) (w1 w2 : Nat) (m' : Mach)
    (hsome : runInstruction w1 w2 ⟨[r0, r1, r2, r3, r4], ram, o, hb⟩ = some m') :
    m'.ram = ram ∧
    runInstruction w1 w2 ⟨[r0, r1, r2, r3, r4], ramB, o, hb⟩ =
      some ⟨m'.reg, ramB, m'.output, m'.halt⟩ := by
  rw [runInstruction_eq_stepCases] at hsome
  rw [runInstruction_eq_stepCases]
  simp only [stepCases] at hsome ⊢
  split_ifs at hsome ⊢ <;>
    first
      | exact Option.noConfusion hsome
      | (injection hsome with h; subst h; exact ⟨rfl, rfl⟩)


/-- C4 witness: the amended PC theorem at LDV 2 (`0xA200`) with literal 7 from
the reset register file. -/
theorem pc_semantics_witness :
    (getNibble1 0xA200 ≠ 0xE →
      (getNibble1 0xA200 = 0x0 → getNibble4 0xA200 ≠ 0) →
      (getNibble1 0xA200 = 0x6 → getNibble3 0xA200 ≠ 0) →
      (getNibble1 0xA200 = 0xA → getNibble2 0xA200 ≠ 0) →
      (⟨[2, 0, 7, 0, 0], fun _ => 0, [], false⟩ : Mach).reg.get? 0 =
        some ((0 + 2) % 65536)) ∧
    (getNibble1 0xA200 = 0xE → getNibble2 0xA200 = 0 →
      getbit 0 (getNibble3 0xA200) = 0 →
      (⟨[2, 0, 7, 0, 0], fun _ => 0, [], false⟩ : Mach).reg.get? 0 = some 7) ∧
    (getNibble1 0xA200 = 0xE → getNibble2 0xA200 = 1 →
      getbit 0 (getNibble3 0xA200) ≠ 0 →
      (⟨[2, 0, 7, 0, 0], fun _ => 0, [], false⟩ : Mach).reg.get? 0 = some 7) ∧
    (getNibble1 0xA200 = 0xE → 2 ≤ getNibble2 0xA200 →
      (⟨[2, 0, 7, 0, 0], fun _ => 0, [], false⟩ : Mach).reg.get? 0 = some 7) ∧
    (getNibble1 0xA200 = 0xE →
      ((getNibble2 0xA200 = 0 ∧ getbit 0 (getNibble3 0xA200) ≠ 0) ∨
       (getNibble2 0xA200 = 1 ∧ getbit 0 (getNibble3 0xA200) = 0)) →
      (⟨[2, 0, 7, 0, 0], fun _ => 0, [], false⟩ : Mach).reg.get? 0 =
        some ((0 + 2) % 65536)) :=
  pc_semantics 0 0 0 0 0 (fun _ => 0) [] false 0xA200 7 (by decide) (by decide)
    ⟨[2, 0, 7, 0, 0], fun _ => 0, [], false⟩ rfl

/-- C7 witness: the write-discipline theorem at OUT 3 (`0x7300`) with flags
holding 9 — slot 0 advances by 2 and slot 1 stays 9. -/
theorem reg_write_discipline_witness :
    (getNibble1 0x7300 ≠ 0xE →
      (getNibble1 0x7300 = 0x0 → getNibble4 0x7300 ≠ 0) →
      (getNibble1 0x7300 = 0x6 → getNibble3 0x7300 ≠ 0) →
      (getNibble1 0x7300 = 0xA → getNibble2 0x7300 ≠ 0) →
      (⟨[2, 9, 0, 4, 0], fun _ => 0, [4], false⟩ : Mach).reg.get? 0 =
        some ((0 + 2) % 65536)) ∧
    (getNibble1 0x7300 ≠ 0x5 →
      (getNibble1 0x7300 = 0x0 → getNibble4 0x7300 ≠ 1) →
      (getNibble1 0x7300 = 0x6 → getNibble3 0x7300 ≠ 1) →
      (getNibble1 0x7300 = 0xA → getNibble2 0x7300 ≠ 1) →
      (⟨[2, 9, 0, 4, 0], fun _ => 0, [4], false⟩ : Mach).reg.get? 1 = some 9) :=
  reg_write_discipline 0 9 0 4 0 (fun _ => 0) [] false 0x7300 0 (by decide) (by decide)
    ⟨[2, 9, 0, 4, 0], fun _ => 0, [4], false⟩ rfl

/-- C10 witness: the RAM-frame theorem at ADD 2 3 4 with two different RAM
contents. -/
theorem ram_never_touched_witness :
    (⟨[2, 0, 1, 2, 3], fun _ => 5, [], false⟩ : Mach).ram = (fun _ => 5) ∧
    runInstruction 0x0234 0 ⟨[0, 0, 1, 2, 0], fun _ => 9, [], false⟩ =
      some ⟨(⟨[2, 0, 1, 2, 3], fun _ => 5, [], false⟩ : Mach).reg, fun _ => 9,
        (⟨[2, 0, 1, 2, 3], fun _ => 5, [], false⟩ : Mach).output,
        (⟨[2, 0, 1, 2, 3], fun _ => 5, [], false⟩ : Mach).halt⟩ :=
  ram_never_touched 0 0 1 2 0 (fun _ => 5) (fun _ => 9) [] false 0x0234 0
    ⟨[2, 0, 1, 2, 3], fun _ => 5, [], false⟩ rfl

end Cpu16
